import Mathlib

/-!
Verification of the api_visualizer event pipeline: a shallow embedding of the
online-aggregate upserts of the storage engine, the id generation and
backpressure of the event emitter, the flush cycle of the collector, the
checks and deduplication of the alert engine, the time-window parsers and the
event sanitizer, together with theorems settling the specified properties.

Machine conventions of the embedding:
- Python floats are modelled as exact rationals (all constants in the
  properties are exactly representable).
- Python `int(x)` truncates toward zero; `pyInt` below does the same on `ℚ`.
- A Python function that can raise is modelled as returning `Option`, with
  `none` standing for the raised exception.
- SQLite semantics used: in an `UPDATE`/`ON CONFLICT DO UPDATE` statement all
  `SET` right-hand sides are evaluated against the pre-update row values, and
  `UNIQUE` indexes treat every NULL as distinct from every other NULL.
-/

namespace ApiVisualizer

/-- Python `int()` applied to a real value: truncation toward zero. -/
def pyInt (q : ℚ) : ℤ := if 0 ≤ q then ⌊q⌋ else ⌈q⌉

/-- Python `int()` applied to a string of decimal digits: `some` of its value
when the character list is a nonempty run of digits, `none` (an exception)
otherwise.  Windows and numeric fields in this codebase are nonnegative
numerals, so the optional sign and surrounding whitespace that Python would
also accept are not modelled. -/
def pyIntDigits (cs : List Char) : Option ℕ :=
  if cs.isEmpty then none
  else if cs.all Char.isDigit then
    some (cs.foldl (fun a c => 10 * a + (c.toNat - 48)) 0)
  else none

/-! ## Storage: `DatabaseManager._update_endpoint_metrics`
     (src/storage/database.py, lines 240-275)

The SQL statement is

  INSERT INTO endpoint_metrics (... request_count, avg_latency_ms,
      error_count, total_request_size, total_response_size)
  VALUES (?, ?, ?, ?, 1, ?, ?, ?, ?)
  ON CONFLICT(service_name, endpoint, method, date_hour) DO UPDATE SET
      request_count = request_count + 1,
      avg_latency_ms = (avg_latency_ms * (request_count - 1) + ?) / request_count,
      error_count = error_count + ?,
      total_request_size = total_request_size + ?,
      total_response_size = total_response_size + ?

In SQLite every column reference on the right-hand side of a `SET` clause
denotes the original (pre-update) row value, so the `request_count` read by
the `avg_latency_ms` expression is the count *before* the increment. -/

/-- One row of the `endpoint_metrics` table (the columns the upsert touches). -/
structure EndpointMetricsRow where
  request_count : ℤ
  avg_latency_ms : ℚ
  error_count : ℤ
  total_request_size : ℤ
  total_response_size : ℤ
deriving DecidableEq, Repr

/-- The upsert of `_update_endpoint_metrics` restricted to one
(service_name, endpoint, method, date_hour) key: `none` is an absent row (the
INSERT branch fires), `some r` is the existing row (the DO UPDATE branch
fires, with SQLite pre-update `SET` semantics).  The bind parameters are the
values the Python code passes: `event.get(..., 0)` for latency and sizes and
the 0/1 error indicator `event.get("error") is not None and 1 or 0`. -/
def update_endpoint_metrics (row? : Option EndpointMetricsRow)
    (latency : ℚ) (errFlag : ℤ) (reqSize respSize : ℤ) : EndpointMetricsRow :=
  match row? with
  | none => ⟨1, latency, errFlag, reqSize, respSize⟩
  | some r =>
      ⟨r.request_count + 1,
       (r.avg_latency_ms * ((r.request_count : ℚ) - 1) + latency) / (r.request_count : ℚ),
       r.error_count + errFlag,
       r.total_request_size + reqSize,
       r.total_response_size + respSize⟩

/-- Folding a sequence of latencies into one fresh bucket: each event carries
the given latency, no error, and zero sizes. -/
def fold_latencies (lats : List ℚ) : Option EndpointMetricsRow :=
  lats.foldl (fun acc l => some (update_endpoint_metrics acc l 0 0 0)) none

/-- The online-mean update the specification claims the upsert performs. -/
def spec_online_mean (avgBefore : ℚ) (countBefore : ℤ) (latency : ℚ) : ℚ :=
  (avgBefore * (countBefore : ℚ) + latency) / ((countBefore : ℚ) + 1)

/-! ## Emitter: `EventEmitter._generate_event_id` and `EventEmitter.emit`
     (src/instrumentation/event_emitter.py) -/

/-- The numeric value of `_generate_event_id`: `int(time.time() * 1000000)`
for the clock reading `t` (seconds). -/
def generate_event_id (t : ℚ) : ℤ := pyInt (t * 1000000)

/-- The string returned by `_generate_event_id`: the decimal rendering of the
microsecond timestamp. -/
def generate_event_id_str (t : ℚ) : String := toString (generate_event_id t)

/-- The emitter state observed by `emit`: the running flag, the bounded
queue (`queue.Queue(maxsize=10000)` in the source; the capacity is kept as a
field), and the `events_emitted`/`dropped_events` counters.  The queue holds
the ids of the stamped events. -/
structure EmitterState where
  is_running : Bool
  maxsize : ℕ
  queue : List ℤ
  events_emitted : ℕ
  dropped_events : ℕ
deriving DecidableEq, Repr

/-- The method `EventEmitter.emit` at clock reading `t`: a no-op unless running; stamps
the event id and tries `put_nowait`.  The Python `queue.Queue` treats
`maxsize <= 0` as unbounded and raises `queue.Full` exactly when
`qsize >= maxsize` for a positive maxsize; on `Full` the event is dropped and
`dropped_events` is incremented, otherwise the event is enqueued and
`events_emitted` is incremented. -/
def emit (s : EmitterState) (t : ℚ) : EmitterState :=
  if s.is_running then
    if s.maxsize = 0 ∨ s.queue.length < s.maxsize then
      { s with queue := s.queue ++ [generate_event_id t],
               events_emitted := s.events_emitted + 1 }
    else
      { s with dropped_events := s.dropped_events + 1 }
  else s

/-- A sequence of `emit` calls with the given clock readings. -/
def emit_many (s : EmitterState) (ts : List ℚ) : EmitterState :=
  ts.foldl emit s

/-- A freshly started emitter with queue capacity `N` and a stalled consumer
(the background drain never runs, so nothing is ever dequeued). -/
def fresh_emitter (N : ℕ) : EmitterState :=
  { is_running := true, maxsize := N, queue := [],
    events_emitted := 0, dropped_events := 0 }

/-! ## Storage: `DatabaseManager._store_api_event` and `store_events`
     (src/storage/database.py, lines 168-238) -/

/-- One row of the `api_events` table, with the columns bound by the
`INSERT OR IGNORE` statement.  Every value the Python code obtains with
`event.get(...)` may be absent (`None`, bound as SQL NULL), hence the
`Option` fields. -/
structure ApiEvent where
  event_id : Option String
  timestamp : Option ℚ
  event_type : Option String
  service_name : Option String
  method : Option String
  url : Option String
  endpoint : Option String
  host : Option String
  status_code : Option ℤ
  latency_ms : Option ℚ
  request_size : Option ℤ
  response_size : Option ℤ
  caller_module : Option String
  caller_function : Option String
  framework : Option String
  error : Option String
deriving DecidableEq, Repr

/-- An event row with every optional column absent (used as a base for the
concrete instances in the theorems below). -/
def blankApiEvent : ApiEvent :=
  ⟨none, none, none, none, none, none, none, none,
   none, none, none, none, none, none, none, none⟩

/-- The mandatory columns of the `api_events` schema: `timestamp`,
`event_type`, `service_name`, `method`, `url`, `endpoint` and `host` are all
declared `NOT NULL` (`event_id` is nullable).  A bind of NULL into any of
them is a constraint violation. -/
def api_event_not_null_ok (e : ApiEvent) : Bool :=
  e.timestamp.isSome && e.event_type.isSome && e.service_name.isSome &&
    e.method.isSome && e.url.isSome && e.endpoint.isSome && e.host.isSome

/-- The method `_store_api_event`: `INSERT OR IGNORE INTO api_events ...`.
`OR IGNORE` silently skips any row that violates a constraint: a row with
NULL in one of the `NOT NULL` columns is never inserted, and a row whose
`event_id` equals that of an existing row is dropped (idempotence on the
`UNIQUE` column).  A NULL `event_id` never conflicts with anything (SQLite
`UNIQUE` indexes treat NULLs as pairwise distinct), so a row with NULL id
that satisfies the `NOT NULL` columns is always inserted. -/
def store_api_event (table : List ApiEvent) (e : ApiEvent) : List ApiEvent :=
  if !api_event_not_null_ok e then table
  else if e.event_id.isSome && table.any (fun r => r.event_id == e.event_id) then table
  else table ++ [e]

/-- Number of rows of the table whose `event_id` column holds the given
value. -/
def count_event_id (table : List ApiEvent) (id? : Option String) : ℕ :=
  (table.filter fun r => r.event_id == id?).length

/-- The method `store_events` projected onto the `api_events` table: one
transaction that runs `_store_api_event` for each event of the batch in
order.  `INSERT OR IGNORE` raises no error on a duplicate key (and a raised
`IntegrityError` would be caught and skipped anyway), so every event of the
batch is processed and the per-event success counter reaches the batch
length; the aggregate upserts run on the other tables (modelled by
`update_endpoint_metrics`) and cannot abort the batch either.  Returns the
updated table and the number of processed events. -/
def store_events_raw (table : List ApiEvent) (batch : List ApiEvent) :
    List ApiEvent × ℕ :=
  batch.foldl (fun acc e => (store_api_event acc.1 e, acc.2 + 1)) (table, 0)

/-! ## Alerting: `AlertEngine._send_alert` (src/alerting/alert_engine.py,
     lines 34-50) -/

/-- The alert-engine state seen by `_send_alert`: the number of configured
notifiers, the session dedup set `alerts_sent` (a set of
`f"{alert_type}:{message}"` strings), and a log of every notifier invocation
`(notifier index, alert_type, message)` made so far. -/
structure AlertEngineState where
  notifier_count : ℕ
  alerts_sent : List String
  sent_log : List (ℕ × String × String)
deriving DecidableEq, Repr

/-- The method `_send_alert`: build `alert_id = f"{alert_type}:{message}"`;
if it was already sent this session, return without dispatching; otherwise
record it and invoke every configured notifier in order (a notifier that
raises is caught and logged, so it still counts as invoked and does not stop
the loop). -/
def send_alert (s : AlertEngineState) (alert_type message : String) :
    AlertEngineState :=
  let alert_id := alert_type ++ ":" ++ message
  if alert_id ∈ s.alerts_sent then s
  else
    { s with
      alerts_sent := alert_id :: s.alerts_sent,
      sent_log := s.sent_log ++
        (List.range s.notifier_count).map (fun i => (i, alert_type, message)) }

/-! ## Collector: `BaseCollector._flush_buffer`
     (src/collector/base_collector.py, lines 51-61) -/

/-- The collector state: the internal `_buffer` and the `api_events` table
behind `store_events`. -/
structure CollectorState where
  buffer : List ApiEvent
  db : List ApiEvent
deriving DecidableEq, Repr

/-- The method `_flush_buffer`: return immediately on an empty buffer;
otherwise call `store_events` inside `try`, catch any exception, and clear
the buffer in the `finally` block.  The flag `store_succeeds` selects whether
the `store_events` call commits its transaction or raises (a raise rolls the
transaction back, leaving the table unchanged); in both cases the buffer ends
empty and nothing is retried. -/
def flush_buffer (s : CollectorState) (store_succeeds : Bool) : CollectorState :=
  if s.buffer.isEmpty then s
  else if store_succeeds then
    { buffer := [], db := (store_events_raw s.db s.buffer).1 }
  else
    { buffer := [], db := s.db }

/-! ## Alerting: `AlertEngine.check_traffic_spike`
     (src/alerting/alert_engine.py, lines 90-110) -/

/-- The percentage increase computed by `check_traffic_spike`:
`((current_rate - baseline_rate) / baseline_rate) * 100`. -/
def traffic_increase (current_rate baseline_rate : ℚ) : ℚ :=
  ((current_rate - baseline_rate) / baseline_rate) * 100

/-- The dispatch decision of `check_traffic_spike`: `true` exactly when the
check reaches `_send_alert`.  The guard returns early when either rate is
`None` or the baseline rate is zero, before the division is evaluated;
otherwise the alert is dispatched iff the computed increase strictly exceeds
the configured threshold. -/
def check_traffic_spike (current_rate baseline_rate : Option ℚ)
    (threshold_percent : ℚ) : Bool :=
  match current_rate, baseline_rate with
  | some c, some b =>
      if b = 0 then false
      else decide (traffic_increase c b > threshold_percent)
  | _, _ => false

/-! ## Time-window parsing: `MetricsAnalyzer._parse_time_window`
     (src/storage/queries.py, lines 309-318) and
     `AlertEngine._parse_time_window_minutes`
     (src/alerting/alert_engine.py, lines 151-160) -/

/-- The method `MetricsAnalyzer._parse_time_window`, which returns a number
of HOURS: a suffix `h` parses the prefix as hours, `d` multiplies by 24, `m`
integer-divides by 60 (Python `//`), and any other string defaults to 24.
`some` is a normal return, `none` an uncaught exception from `int()`. -/
def analyzer_parse_time_window (s : String) : Option ℕ :=
  if s.data.getLast? = some 'h' then pyIntDigits s.data.dropLast
  else if s.data.getLast? = some 'd' then (pyIntDigits s.data.dropLast).map (· * 24)
  else if s.data.getLast? = some 'm' then (pyIntDigits s.data.dropLast).map (· / 60)
  else some 24

/-- The method `AlertEngine._parse_time_window_minutes`, which returns a
number of MINUTES: a suffix `m` parses the prefix as minutes, `h` multiplies
by 60, and any other string is passed whole to `int()` inside a bare
`try/except` that falls back to 5.  There is no `d` branch.  `some` is a
normal return, `none` an uncaught exception from `int()` in the two suffix
branches. -/
def alert_parse_time_window_minutes (s : String) : Option ℕ :=
  if s.data.getLast? = some 'm' then pyIntDigits s.data.dropLast
  else if s.data.getLast? = some 'h' then (pyIntDigits s.data.dropLast).map (· * 60)
  else some ((pyIntDigits s.data).getD 5)

/-! ## Storage: `DatabaseManager.cleanup_old_data`
     (src/storage/database.py, lines 402-418) -/

/-- One row of the `endpoint_metrics` table together with its `date_hour`
key (format `YYYY-MM-DD-HH`). -/
structure EndpointMetricsBucket where
  date_hour : String
  metrics : EndpointMetricsRow
deriving DecidableEq, Repr

/-- The method `cleanup_old_data`: one transaction running
`DELETE FROM api_events WHERE timestamp < cutoff_time` and
`DELETE FROM endpoint_metrics WHERE date_hour < cutoff_date` (a lexicographic
TEXT comparison; both strings are ASCII, where SQLite byte order and the
Lean string order agree).  A NULL timestamp never satisfies `timestamp < ?`,
so such rows are retained.  Retained rows are untouched: no aggregate is
recomputed. -/
def cleanup_old_data (events : List ApiEvent) (buckets : List EndpointMetricsBucket)
    (cutoff_time : ℚ) (cutoff_date : String) :
    List ApiEvent × List EndpointMetricsBucket :=
  (events.filter fun e =>
      match e.timestamp with
      | none => true
      | some ts => decide (¬ ts < cutoff_time),
   buckets.filter fun b => decide (¬ b.date_hour < cutoff_date))

/-! ## Validation: `EventValidator.sanitize_event`
     (src/storage/models.py, lines 211-240)

The Python dictionary is modelled as an ordered association list of string
keys and scalar values; `sanitize_event` starts from `event.copy()` and every
assignment targets a key that the guard has just checked to be present, so
assignment is modelled as in-place value replacement.  A raised exception is
`none`. -/

/-- A Python scalar value as it occurs in event dictionaries. -/
inductive PyVal where
  | str (s : String)
  | int (n : ℤ)
  | float (q : ℚ)
  | pynone
deriving DecidableEq, Repr

/-- An event dictionary: insertion-ordered keys with their values. -/
abbrev PyDict := List (String × PyVal)

/-- The keys of a dictionary, in order. -/
def dictKeys (d : PyDict) : List String := d.map Prod.fst

/-- Dictionary indexing: the value at the first occurrence of the key,
`none` when absent. -/
def dictLookup : PyDict → String → Option PyVal
  | [], _ => none
  | (k2, v) :: rest, k => if k2 = k then some v else dictLookup rest k

/-- Assignment to a present key: replace the value stored under `k`, keep
every other entry and the key order. -/
def dictSet (d : PyDict) (k : String) (v : PyVal) : PyDict :=
  d.map fun kv => if kv.1 = k then (kv.1, v) else kv

/-- Python `str.upper()` (ASCII semantics). -/
def pyUpper (s : String) : String := ⟨s.data.map Char.toUpper⟩

/-- Python `s[:500]`. -/
def pySlice500 (s : String) : String := ⟨s.data.take 500⟩

/-- Python `int(value)` on a scalar: identity on int, truncation on float,
digit parsing on strings (nonnegative numerals modelled, see `pyIntDigits`),
and an exception (`none`) on `None` or an unparseable string. -/
def pyIntOfVal : PyVal → Option ℤ
  | .int n => some n
  | .float q => some (pyInt q)
  | .str s => (pyIntDigits s.data).map Int.ofNat
  | .pynone => none

/-- Python `float(value)` on a scalar: int and float embed, strings parse
(integer numerals modelled), `None` raises. -/
def pyFloatOfVal : PyVal → Option ℚ
  | .int n => some n
  | .float q => some q
  | .str s => (pyIntDigits s.data).map (fun n => (n : ℚ))
  | .pynone => none

/-- The `string_fields` list of `sanitize_event`. -/
def string_fields : List String :=
  ["service_name", "method", "url", "endpoint", "host",
   "caller_module", "caller_function"]

/-- One iteration of the string-field loop: when the field is present and its
value is a string, strip it and truncate to 500 characters; otherwise leave
the dictionary alone. -/
def sanitize_string_field (d : PyDict) (f : String) : PyDict :=
  match dictLookup d f with
  | some (.str s) => dictSet d f (.str (pySlice500 s.trim))
  | _ => d

/-- The string-field loop of `sanitize_event`. -/
def sanitize_strings (d : PyDict) : PyDict :=
  string_fields.foldl sanitize_string_field d

/-- The method-uppercasing step: `sanitized["method"].upper()` is called
whenever the key is present, without a type guard, so a non-string value
raises `AttributeError` (`none`). -/
def sanitize_method (d : PyDict) : Option PyDict :=
  match dictLookup d "method" with
  | none => some d
  | some (.str s) => some (dictSet d "method" (.str (pyUpper s)))
  | some _ => none

/-- The status-code step: when the key is present and its value is not
`None`, cast the value to `int`. -/
def sanitize_status_code (d : PyDict) : Option PyDict :=
  match dictLookup d "status_code" with
  | none => some d
  | some v =>
      if v = .pynone then some d
      else (pyIntOfVal v).map fun n => dictSet d "status_code" (.int n)

/-- The latency step: when the key is present and its value is not `None`,
cast the value to `float`. -/
def sanitize_latency (d : PyDict) : Option PyDict :=
  match dictLookup d "latency_ms" with
  | none => some d
  | some v =>
      if v = .pynone then some d
      else (pyFloatOfVal v).map fun q => dictSet d "latency_ms" (.float q)

/-- One size field: when present, replace by `max(0, int(value))` (an
unconvertible value, `None` included, raises). -/
def sanitize_size_field (d : PyDict) (f : String) : Option PyDict :=
  match dictLookup d f with
  | none => some d
  | some v => (pyIntOfVal v).map fun n => dictSet d f (.int (max 0 n))

/-- The classmethod `EventValidator.sanitize_event`: the string-field loop,
then method uppercasing, then the numeric casts, in source order.  The input
dictionary itself is never mutated (the code works on `event.copy()`), which
the pure embedding reflects trivially. -/
def sanitize_event (d : PyDict) : Option PyDict :=
  (sanitize_method (sanitize_strings d)).bind fun d1 =>
    (sanitize_status_code d1).bind fun d2 =>
      (sanitize_latency d2).bind fun d3 =>
        (sanitize_size_field d3 "request_size").bind fun d4 =>
          sanitize_size_field d4 "response_size"

/-! ## Concrete fixtures used by the witness theorems below -/

/-- An event with every `NOT NULL` column present (and a null `event_id`). -/
def fullApiEvent : ApiEvent :=
  { blankApiEvent with
    timestamp := some 1, event_type := some "http_request",
    service_name := some "svc", method := some "GET", url := some "u",
    endpoint := some "/e", host := some "h" }

/-- A complete event carrying a non-null `event_id`. -/
def dupApiEvent : ApiEvent := { fullApiEvent with event_id := some "a" }

/-- An event whose timestamp equals the retention cutoff used below. -/
def eventAtCutoff : ApiEvent := { blankApiEvent with timestamp := some 5 }

/-- An event one second older than the retention cutoff used below. -/
def eventOlder : ApiEvent := { blankApiEvent with timestamp := some 4 }

/-- A metrics bucket from the day before the cutoff date used below. -/
def oldBucket : EndpointMetricsBucket := ⟨"2024-01-14-23", ⟨0, 0, 0, 0, 0⟩⟩

/-- An event dictionary on which `sanitize_event` succeeds. -/
def sanitizeFixture : PyDict := [("status_code", PyVal.int 200), ("foo", PyVal.int 7)]

/-! # Helper lemmas -/

/-- While the queue still has room for the whole emission sequence, every
`emit` succeeds: the queue grows by one per event, `events_emitted` counts
them all and nothing is dropped. -/
theorem emit_fill (ts : List ℚ) : ∀ s : EmitterState, s.is_running = true →
    s.queue.length + ts.length ≤ s.maxsize →
    (emit_many s ts).is_running = true ∧
    (emit_many s ts).maxsize = s.maxsize ∧
    (emit_many s ts).queue.length = s.queue.length + ts.length ∧
    (emit_many s ts).events_emitted = s.events_emitted + ts.length ∧
    (emit_many s ts).dropped_events = s.dropped_events := by
  induction ts with
  | nil => intro s h1 _; simp [emit_many]; exact h1
  | cons t rest ih =>
    intro s h1 h2
    simp only [List.length_cons] at h2
    have hlt : s.queue.length < s.maxsize := by omega
    have hemit : emit s t =
        { s with queue := s.queue ++ [generate_event_id t],
                 events_emitted := s.events_emitted + 1 } := by
      simp [emit, h1, hlt]
    have hstep : emit_many s (t :: rest) = emit_many (emit s t) rest := by
      simp [emit_many]
    have hlen2 : (s.queue ++ [generate_event_id t]).length + rest.length ≤ s.maxsize := by
      simp only [List.length_append, List.length_singleton]
      omega
    have hres := ih { s with queue := s.queue ++ [generate_event_id t],
                             events_emitted := s.events_emitted + 1 } h1 hlen2
    rw [hstep, hemit]
    obtain ⟨a, b, c, d, e⟩ := hres
    simp only [List.length_append, List.length_singleton] at c
    refine ⟨a, b, ?_, ?_, e⟩
    · rw [c]; simp only [List.length_cons]; omega
    · rw [d]; simp only [List.length_cons]; omega

/-- Appending a non-digit character makes a character list unparseable for
`int()`. -/
theorem pyIntDigits_concat_nondigit (cs : List Char) (c : Char)
    (hc : c.isDigit = false) : pyIntDigits (cs ++ [c]) = none := by
  unfold pyIntDigits
  split_ifs with h1 h2
  · rfl
  · rw [List.all_append] at h2
    simp [hc] at h2
  · rfl

/-- A successful `int()` parse implies the character list is a nonempty run
of digits. -/
theorem pyIntDigits_some_facts (cs : List Char) (n : ℕ)
    (hn : pyIntDigits cs = some n) :
    cs.isEmpty = false ∧ cs.all Char.isDigit = true := by
  rw [pyIntDigits] at hn
  split_ifs at hn with h1 h2
  exact ⟨by simpa using h1, h2⟩

/-- Unfolding `dictSet` over a cons cell. -/
theorem dictSet_cons (k1 : String) (v1 : PyVal) (rest : PyDict) (k : String) (v : PyVal) :
    dictSet ((k1, v1) :: rest) k v =
      (if k1 = k then (k1, v) else (k1, v1)) :: dictSet rest k v := by
  by_cases h : k1 = k <;> simp [dictSet, h]

/-- Unfolding `dictLookup` over a cons cell. -/
theorem dictLookup_cons (k1 : String) (v1 : PyVal) (rest : PyDict) (k : String) :
    dictLookup ((k1, v1) :: rest) k = if k1 = k then some v1 else dictLookup rest k := rfl

/-- Assignment preserves the key list. -/
theorem dictKeys_dictSet (d : PyDict) (k : String) (v : PyVal) :
    dictKeys (dictSet d k v) = dictKeys d := by
  unfold dictKeys dictSet
  rw [List.map_map]
  apply List.map_congr_left
  intro kv _
  by_cases h : kv.1 = k <;> simp [h]

/-- Assignment leaves every other key untouched. -/
theorem dictLookup_dictSet_ne (d : PyDict) (k k2 : String) (v : PyVal)
    (h : k2 ≠ k) : dictLookup (dictSet d k v) k2 = dictLookup d k2 := by
  induction d with
  | nil => rfl
  | cons kv rest ih =>
    obtain ⟨k1, v1⟩ := kv
    rw [dictSet_cons]
    by_cases hk : k1 = k
    · have hne : ¬ k1 = k2 := fun he => h (hk ▸ he).symm
      rw [if_pos hk, dictLookup_cons, dictLookup_cons, if_neg hne, if_neg hne]
      exact ih
    · rw [if_neg hk, dictLookup_cons, dictLookup_cons]
      by_cases h2 : k1 = k2
      · rw [if_pos h2, if_pos h2]
      · rw [if_neg h2, if_neg h2]
        exact ih

/-- Assignment to a present key stores the new value. -/
theorem dictLookup_dictSet_self (d : PyDict) (k : String) (v v0 : PyVal)
    (h : dictLookup d k = some v0) : dictLookup (dictSet d k v) k = some v := by
  induction d with
  | nil => exact Option.noConfusion h
  | cons kv rest ih =>
    obtain ⟨k1, v1⟩ := kv
    rw [dictSet_cons]
    rw [dictLookup_cons] at h
    by_cases hk : k1 = k
    · rw [if_pos hk, dictLookup_cons, if_pos hk]
    · rw [if_neg hk] at h
      rw [if_neg hk, dictLookup_cons, if_neg hk]
      exact ih h

/-- One string-field iteration preserves the key list. -/
theorem dictKeys_sanitize_string_field (d : PyDict) (f : String) :
    dictKeys (sanitize_string_field d f) = dictKeys d := by
  unfold sanitize_string_field
  split
  · exact dictKeys_dictSet _ _ _
  · rfl

/-- One string-field iteration leaves other keys untouched. -/
theorem dictLookup_sanitize_string_field_ne (d : PyDict) (f k : String) (h : k ≠ f) :
    dictLookup (sanitize_string_field d f) k = dictLookup d k := by
  unfold sanitize_string_field
  split
  · exact dictLookup_dictSet_ne _ _ _ _ h
  · rfl

/-- One string-field iteration strips and truncates a string value. -/
theorem dictLookup_sanitize_string_field_str (d : PyDict) (f s : String)
    (h : dictLookup d f = some (.str s)) :
    dictLookup (sanitize_string_field d f) f = some (.str (pySlice500 s.trim)) := by
  unfold sanitize_string_field
  split
  · rename_i s2 heq
    rw [heq] at h
    obtain h2 := Option.some.inj h
    cases h2
    exact dictLookup_dictSet_self _ _ _ _ heq
  · rename_i hno
    exact absurd h (hno s)

/-- One string-field iteration leaves a non-string value untouched. -/
theorem dictLookup_sanitize_string_field_nonstr (d : PyDict) (f : String) (v : PyVal)
    (h : dictLookup d f = some v) (hv : ∀ s2, v ≠ .str s2) :
    dictLookup (sanitize_string_field d f) f = some v := by
  unfold sanitize_string_field
  split
  · rename_i s2 heq
    rw [heq] at h
    exact absurd (Option.some.inj h).symm (hv s2)
  · exact h

/-- The string-field loop preserves the key list. -/
theorem dictKeys_sanitize_strings_aux (fs : List String) (d : PyDict) :
    dictKeys (fs.foldl sanitize_string_field d) = dictKeys d := by
  induction fs generalizing d with
  | nil => rfl
  | cons f rest ih => rw [List.foldl_cons, ih, dictKeys_sanitize_string_field]

/-- The string-field loop leaves keys outside the field list untouched. -/
theorem dictLookup_foldl_ssf_ne (fs : List String) (d : PyDict) (k : String)
    (h : k ∉ fs) :
    dictLookup (fs.foldl sanitize_string_field d) k = dictLookup d k := by
  induction fs generalizing d with
  | nil => rfl
  | cons f rest ih =>
    rw [List.foldl_cons, ih (sanitize_string_field d f)
          (fun hm => h (List.mem_cons_of_mem f hm)),
        dictLookup_sanitize_string_field_ne d f k
          (fun he => h (he ▸ List.mem_cons_self f rest))]

/-- The string-field loop strips and truncates the string value of every
field of the list (taken without duplicates). -/
theorem dictLookup_foldl_ssf_str (fs : List String) (d : PyDict) (f s : String)
    (hmem : f ∈ fs) (hnd : fs.Nodup) (h : dictLookup d f = some (.str s)) :
    dictLookup (fs.foldl sanitize_string_field d) f =
      some (.str (pySlice500 s.trim)) := by
  induction fs generalizing d with
  | nil => cases hmem
  | cons g rest ih =>
    rw [List.foldl_cons]
    rcases List.mem_cons.mp hmem with he | hm
    · subst he
      have hnotin : f ∉ rest := (List.nodup_cons.mp hnd).1
      rw [dictLookup_foldl_ssf_ne rest _ f hnotin]
      exact dictLookup_sanitize_string_field_str d f s h
    · have hg : f ≠ g := fun he2 => (List.nodup_cons.mp hnd).1 (he2 ▸ hm)
      exact ih (sanitize_string_field d g) hm (List.nodup_cons.mp hnd).2
        (by rw [dictLookup_sanitize_string_field_ne d g f hg]; exact h)

/-- The string-field loop leaves a non-string value of a listed field
untouched. -/
theorem dictLookup_foldl_ssf_nonstr (fs : List String) (d : PyDict) (f : String)
    (v : PyVal) (hmem : f ∈ fs) (hnd : fs.Nodup)
    (h : dictLookup d f = some v) (hv : ∀ s2, v ≠ .str s2) :
    dictLookup (fs.foldl sanitize_string_field d) f = some v := by
  induction fs generalizing d with
  | nil => cases hmem
  | cons g rest ih =>
    rw [List.foldl_cons]
    rcases List.mem_cons.mp hmem with he | hm
    · subst he
      have hnotin : f ∉ rest := (List.nodup_cons.mp hnd).1
      rw [dictLookup_foldl_ssf_ne rest _ f hnotin]
      exact dictLookup_sanitize_string_field_nonstr d f v h hv
    · have hg : f ≠ g := fun he2 => (List.nodup_cons.mp hnd).1 (he2 ▸ hm)
      exact ih (sanitize_string_field d g) hm (List.nodup_cons.mp hnd).2
        (by rw [dictLookup_sanitize_string_field_ne d g f hg]; exact h)

/-- The method step preserves keys and other lookups when it succeeds. -/
theorem sanitize_method_keys_frame (d d2 : PyDict) (h : sanitize_method d = some d2) :
    dictKeys d2 = dictKeys d ∧
    ∀ k, k ≠ "method" → dictLookup d2 k = dictLookup d k := by
  unfold sanitize_method at h
  split at h
  · obtain rfl := Option.some.inj h
    exact ⟨rfl, fun _ _ => rfl⟩
  · obtain rfl := Option.some.inj h
    exact ⟨dictKeys_dictSet _ _ _, fun k hk => dictLookup_dictSet_ne _ _ _ _ hk⟩
  all_goals exact Option.noConfusion h

/-- The method step uppercases a present string value. -/
theorem sanitize_method_transform (d d2 : PyDict) (s : String)
    (hs : dictLookup d "method" = some (.str s)) (h : sanitize_method d = some d2) :
    dictLookup d2 "method" = some (.str (pyUpper s)) := by
  unfold sanitize_method at h
  split at h
  · rename_i heq
    rw [heq] at hs
    exact Option.noConfusion hs
  · rename_i s2 heq
    obtain rfl := Option.some.inj h
    rw [heq] at hs
    obtain h3 := Option.some.inj hs
    cases h3
    exact dictLookup_dictSet_self _ _ _ _ heq
  all_goals exact Option.noConfusion h

/-- The status-code step preserves keys and other lookups when it
succeeds. -/
theorem sanitize_status_code_keys_frame (d d2 : PyDict)
    (h : sanitize_status_code d = some d2) :
    dictKeys d2 = dictKeys d ∧
    ∀ k, k ≠ "status_code" → dictLookup d2 k = dictLookup d k := by
  unfold sanitize_status_code at h
  split at h
  · obtain rfl := Option.some.inj h
    exact ⟨rfl, fun _ _ => rfl⟩
  · split at h
    · obtain rfl := Option.some.inj h
      exact ⟨rfl, fun _ _ => rfl⟩
    · obtain ⟨n, hn, hd⟩ := Option.map_eq_some'.mp h
      obtain rfl := hd
      exact ⟨dictKeys_dictSet _ _ _, fun k hk => dictLookup_dictSet_ne _ _ _ _ hk⟩

/-- The status-code step casts a convertible value to `int`. -/
theorem sanitize_status_code_transform (d d2 : PyDict) (v : PyVal) (n : ℤ)
    (hv : dictLookup d "status_code" = some v)
    (hcast : pyIntOfVal v = some n) (h : sanitize_status_code d = some d2) :
    dictLookup d2 "status_code" = some (.int n) := by
  unfold sanitize_status_code at h
  split at h
  · rename_i heq
    rw [heq] at hv
    exact Option.noConfusion hv
  · rename_i v2 heq
    rw [heq] at hv
    obtain rfl := Option.some.inj hv
    split at h
    · rename_i hpy
      rw [hpy] at hcast
      exact Option.noConfusion hcast
    · obtain ⟨n2, hn2, hd⟩ := Option.map_eq_some'.mp h
      rw [hcast] at hn2
      obtain rfl := Option.some.inj hn2
      obtain rfl := hd
      exact dictLookup_dictSet_self _ _ _ _ heq

/-- The latency step preserves keys and other lookups when it succeeds. -/
theorem sanitize_latency_keys_frame (d d2 : PyDict)
    (h : sanitize_latency d = some d2) :
    dictKeys d2 = dictKeys d ∧
    ∀ k, k ≠ "latency_ms" → dictLookup d2 k = dictLookup d k := by
  unfold sanitize_latency at h
  split at h
  · obtain rfl := Option.some.inj h
    exact ⟨rfl, fun _ _ => rfl⟩
  · split at h
    · obtain rfl := Option.some.inj h
      exact ⟨rfl, fun _ _ => rfl⟩
    · obtain ⟨q, hq, hd⟩ := Option.map_eq_some'.mp h
      obtain rfl := hd
      exact ⟨dictKeys_dictSet _ _ _, fun k hk => dictLookup_dictSet_ne _ _ _ _ hk⟩

/-- The latency step casts a convertible value to `float`. -/
theorem sanitize_latency_transform (d d2 : PyDict) (v : PyVal) (q : ℚ)
    (hv : dictLookup d "latency_ms" = some v)
    (hcast : pyFloatOfVal v = some q) (h : sanitize_latency d = some d2) :
    dictLookup d2 "latency_ms" = some (.float q) := by
  unfold sanitize_latency at h
  split at h
  · rename_i heq
    rw [heq] at hv
    exact Option.noConfusion hv
  · rename_i v2 heq
    rw [heq] at hv
    obtain rfl := Option.some.inj hv
    split at h
    · rename_i hpy
      rw [hpy] at hcast
      exact Option.noConfusion hcast
    · obtain ⟨q2, hq2, hd⟩ := Option.map_eq_some'.mp h
      rw [hcast] at hq2
      obtain rfl := Option.some.inj hq2
      obtain rfl := hd
      exact dictLookup_dictSet_self _ _ _ _ heq

/-- A size step preserves keys and other lookups when it succeeds. -/
theorem sanitize_size_field_keys_frame (d d2 : PyDict) (f : String)
    (h : sanitize_size_field d f = some d2) :
    dictKeys d2 = dictKeys d ∧
    ∀ k, k ≠ f → dictLookup d2 k = dictLookup d k := by
  unfold sanitize_size_field at h
  split at h
  · obtain rfl := Option.some.inj h
    exact ⟨rfl, fun _ _ => rfl⟩
  · obtain ⟨n, hn, hd⟩ := Option.map_eq_some'.mp h
    obtain rfl := hd
    exact ⟨dictKeys_dictSet _ _ _, fun k hk => dictLookup_dictSet_ne _ _ _ _ hk⟩

/-- A size step replaces a convertible value by `max(0, int(value))`. -/
theorem sanitize_size_field_transform (d d2 : PyDict) (f : String) (v : PyVal) (n : ℤ)
    (hv : dictLookup d f = some v) (hcast : pyIntOfVal v = some n)
    (h : sanitize_size_field d f = some d2) :
    dictLookup d2 f = some (.int (max 0 n)) := by
  unfold sanitize_size_field at h
  split at h
  · rename_i heq
    rw [heq] at hv
    exact Option.noConfusion hv
  · rename_i v2 heq
    rw [heq] at hv
    obtain rfl := Option.some.inj hv
    obtain ⟨n2, hn2, hd⟩ := Option.map_eq_some'.mp h
    rw [hcast] at hn2
    obtain rfl := Option.some.inj hn2
    obtain rfl := hd
    exact dictLookup_dictSet_self _ _ _ _ heq

/-! # Claim theorems -/

/-- Claim C1 (code bug).  The claim states that each fold updates the mean as
`(avg * count_before + latency) / (count_before + 1)` and that folding
latencies [100, 200, 300] into a fresh bucket yields `request_count = 3` and
`avg_latency_ms = 200.0`.  The upsert actually divides by the PRE-update
`request_count` (SQLite evaluates every `SET` right-hand side against the
original row), so the fold yields `avg_latency_ms = 250.0`; the last two
conjuncts recompute the claimed online mean `100, 200, 300 ↦ 200` for
contrast. -/
theorem c1_online_mean_code_bug :
    fold_latencies [100, 200, 300] =
      some { request_count := 3, avg_latency_ms := 250, error_count := 0,
             total_request_size := 0, total_response_size := 0 } ∧
    spec_online_mean 100 1 200 = 150 ∧
    spec_online_mean 150 2 300 = 200 := by
  refine ⟨?_, ?_, ?_⟩
  · simp [fold_latencies, update_endpoint_metrics]
    norm_num
  · simp [spec_online_mean]
    norm_num
  · simp [spec_online_mean]
    norm_num

/-- Claim C2 (code bug).  The claim states that a later emission always gets
a strictly greater (hence distinct) event id.  The id is the string of the
truncated microsecond clock, so two emissions whose clock readings fall in
the same microsecond (here 1.0000002s and 1.0000004s, the second strictly
later) receive the identical id "1000000", contradicting uniqueness and
strict growth. -/
theorem c2_event_id_collision_code_bug :
    generate_event_id_str (1 + 2/10000000) = generate_event_id_str (1 + 4/10000000) ∧
    generate_event_id_str (1 + 2/10000000) = "1000000" ∧
    ((1 : ℚ) + 2/10000000) < 1 + 4/10000000 := by
  have h1 : generate_event_id (1 + 2/10000000) = 1000000 := by
    simp [generate_event_id, pyInt]
    norm_num
  have h2 : generate_event_id (1 + 4/10000000) = 1000000 := by
    simp [generate_event_id, pyInt]
    norm_num
  refine ⟨?_, ?_, by norm_num⟩
  · simp [generate_event_id_str, h1, h2]
  · simp only [generate_event_id_str]
    rw [h1]
    rfl

/-- Claim C3 (confirmed).  On a running emitter whose bounded queue (of
positive capacity) is full, `emit` drops the event: `dropped_events` grows by
one, `events_emitted` and the queue are unchanged; and emitting `N + 1`
events into a freshly started emitter of capacity `N ≥ 1` whose consumer is
stalled yields `events_emitted = N` and `dropped_events = 1`. -/
theorem c3_backpressure_drop_on_full :
    (∀ (s : EmitterState) (t : ℚ), s.is_running = true → s.maxsize ≠ 0 →
        s.maxsize ≤ s.queue.length →
        (emit s t).dropped_events = s.dropped_events + 1 ∧
        (emit s t).events_emitted = s.events_emitted ∧
        (emit s t).queue = s.queue) ∧
    (∀ (N : ℕ) (ts : List ℚ), 1 ≤ N → ts.length = N + 1 →
        (emit_many (fresh_emitter N) ts).events_emitted = N ∧
        (emit_many (fresh_emitter N) ts).dropped_events = 1) := by
  constructor
  · intro s t h1 h2 h3
    have hnot : ¬ (s.maxsize = 0 ∨ s.queue.length < s.maxsize) := by omega
    simp [emit, h1, hnot]
  · intro N ts hN hlen
    have h1 : (ts.take N).length = N := by simp [hlen]
    have h2 : (ts.drop N).length = 1 := by simp [hlen]
    obtain ⟨t, ht⟩ := List.length_eq_one.mp h2
    have hsplit : ts = ts.take N ++ [t] := by
      rw [← ht]
      exact (List.take_append_drop N ts).symm
    have happ : emit_many (fresh_emitter N) ts =
        emit (emit_many (fresh_emitter N) (ts.take N)) t := by
      rw [hsplit]
      simp [emit_many, List.foldl_append]
      rw [← hsplit]
    have hfill := emit_fill (ts.take N) (fresh_emitter N) rfl (by simp [fresh_emitter, h1])
    obtain ⟨hr, hm, hq, he, hd⟩ := hfill
    have hfull : ¬ ((emit_many (fresh_emitter N) (ts.take N)).maxsize = 0 ∨
        (emit_many (fresh_emitter N) (ts.take N)).queue.length <
        (emit_many (fresh_emitter N) (ts.take N)).maxsize) := by
      rw [hm, hq]
      simp [fresh_emitter, h1]
      omega
    rw [happ]
    constructor
    · simp [emit, hr, hfull]
      rw [he]
      simp [fresh_emitter, h1]
    · simp [emit, hr, hfull]
      rw [hd]
      simp [fresh_emitter]

/-- Witness for C3: a full running emitter of capacity 2 drops, and emitting
3 events into a fresh capacity-2 emitter gives `events_emitted = 2` and
`dropped_events = 1`. -/
theorem c3_backpressure_drop_on_full_witness :
    ((emit ⟨true, 2, [10, 11], 7, 9⟩ 1).dropped_events = 9 + 1 ∧
     (emit ⟨true, 2, [10, 11], 7, 9⟩ 1).events_emitted = 7 ∧
     (emit ⟨true, 2, [10, 11], 7, 9⟩ 1).queue = [10, 11]) ∧
    ((emit_many (fresh_emitter 2) [1, 2, 3]).events_emitted = 2 ∧
     (emit_many (fresh_emitter 2) [1, 2, 3]).dropped_events = 1) :=
  ⟨c3_backpressure_drop_on_full.1 ⟨true, 2, [10, 11], 7, 9⟩ 1 rfl
      (by decide) (by decide),
   c3_backpressure_drop_on_full.2 2 [1, 2, 3] (by decide) (by decide)⟩

/-- Counterexample for C4.  The claim quantifies over every event and fails
in two ways: for a complete event whose `event_id` is null, SQLite `UNIQUE`
never fires (every NULL is distinct from every NULL), so storing it twice
leaves TWO rows with that event id; and for an event with NULL in a
`NOT NULL` column, `OR IGNORE` silently skips every insert, leaving ZERO
rows. -/
theorem c4_null_event_id_counterexample :
    count_event_id (store_api_event (store_api_event [] fullApiEvent)
      fullApiEvent) none = 2 ∧
    count_event_id (store_api_event (store_api_event [] blankApiEvent)
      blankApiEvent) none = 0 := by
  constructor <;> rfl

/-- Claim C4 (corrected).  For every event carrying a non-null `event_id`
that the table does not yet contain and satisfying the `NOT NULL` columns,
storing a batch holding it twice (or the event and a second such event with
the same id) leaves exactly one row with that id, and the batch is not
aborted: both events are processed. -/
theorem c4_idempotent_on_nonnull_event_id :
    ∀ (table : List ApiEvent) (e e2 : ApiEvent) (id : String),
      e.event_id = some id → e2.event_id = some id →
      api_event_not_null_ok e = true → api_event_not_null_ok e2 = true →
      count_event_id table (some id) = 0 →
      count_event_id (store_events_raw table [e, e2]).1 (some id) = 1 ∧
      (store_events_raw table [e, e2]).2 = 2 := by
  intro table e e2 id he he2 hok hok2 hcount
  have hraw : store_events_raw table [e, e2] =
      (store_api_event (store_api_event table e) e2, 2) := rfl
  have hnone : table.any (fun r => r.event_id == some id) = false := by
    rw [count_event_id, List.length_eq_zero, List.filter_eq_nil_iff] at hcount
    rw [List.any_eq_false]
    intro r hr
    simpa using hcount r hr
  have h1 : store_api_event table e = table ++ [e] := by
    simp [store_api_event, hok, he, hnone]
  have h2 : store_api_event (table ++ [e]) e2 = table ++ [e] := by
    simp [store_api_event, hok2, he2, List.any_append, he]
  have hc0 : (table.filter fun r => r.event_id == some id) = [] := by
    rw [count_event_id, List.length_eq_zero] at hcount
    exact hcount
  rw [hraw, h1, h2]
  constructor
  · rw [count_event_id, List.filter_append, hc0]
    simp [he]
  · rfl

/-- Witness for C4: storing a batch with the same complete non-null-id event
twice into an empty table leaves one row and processes both events. -/
theorem c4_idempotent_on_nonnull_event_id_witness :
    count_event_id (store_events_raw [] [dupApiEvent, dupApiEvent]).1 (some "a") = 1 ∧
    (store_events_raw [] [dupApiEvent, dupApiEvent]).2 = 2 :=
  c4_idempotent_on_nonnull_event_id [] dupApiEvent dupApiEvent "a" rfl rfl rfl rfl rfl

/-- Claim C5 (confirmed).  Once `_send_alert` has dispatched an
`(alert_type, message)` pair, a later call with the identical pair is a
complete no-op; and starting from a state in which the pair is fresh, two
identical calls append exactly one invocation of each configured notifier to
the dispatch log. -/
theorem c5_alert_dedup_session :
    (∀ (s : AlertEngineState) (a m : String),
       send_alert (send_alert s a m) a m = send_alert s a m) ∧
    (∀ (s : AlertEngineState) (a m : String),
       (a ++ ":" ++ m) ∉ s.alerts_sent →
       (send_alert (send_alert s a m) a m).sent_log =
         s.sent_log ++ (List.range s.notifier_count).map (fun i => (i, a, m))) := by
  have hmem : ∀ (s : AlertEngineState) (a m : String),
      (a ++ ":" ++ m) ∈ (send_alert s a m).alerts_sent := by
    intro s a m
    by_cases h : (a ++ ":" ++ m) ∈ s.alerts_sent <;> simp [send_alert, h]
  have hidem : ∀ (s : AlertEngineState) (a m : String),
      send_alert (send_alert s a m) a m = send_alert s a m := by
    intro s a m
    conv_lhs => rw [send_alert]
    simp [hmem s a m]
  refine ⟨hidem, ?_⟩
  intro s a m h
  rw [hidem s a m]
  simp [send_alert, h]

/-- Witness for C5 at a fresh two-notifier engine. -/
theorem c5_alert_dedup_session_witness :
    (send_alert (send_alert ⟨2, [], []⟩ "High Latency" "msg") "High Latency" "msg" =
       send_alert ⟨2, [], []⟩ "High Latency" "msg") ∧
    (send_alert (send_alert ⟨2, [], []⟩ "High Latency" "msg") "High Latency" "msg").sent_log =
      [] ++ (List.range 2).map (fun i => (i, "High Latency", "msg")) :=
  ⟨c5_alert_dedup_session.1 ⟨2, [], []⟩ "High Latency" "msg",
   c5_alert_dedup_session.2 ⟨2, [], []⟩ "High Latency" "msg" (by simp)⟩

/-- Claim C6 (confirmed).  After any `_flush_buffer` call the buffer is
empty — whether the store succeeded or raised — and on a raising store the
database is unchanged, so the events of the failed batch are lost and
nothing re-adds them. -/
theorem c6_flush_clears_buffer :
    ∀ (s : CollectorState) (ok : Bool),
      (flush_buffer s ok).buffer = [] ∧ (flush_buffer s false).db = s.db := by
  intro s ok
  constructor
  · unfold flush_buffer
    split_ifs with h1 h2
    · simpa [List.isEmpty_iff] using h1
    · rfl
    · rfl
  · unfold flush_buffer
    split_ifs with h1 h2
    · rfl
    · exact h2.elim
    · rfl

/-- Claim C7 (confirmed).  `check_traffic_spike` returns without dispatching
when either rate is unavailable or the baseline is zero (so the division is
never reached with a zero divisor); for a nonzero baseline it dispatches iff
`((current - baseline) / baseline) * 100` strictly exceeds the threshold;
and with baseline 10, current 25, threshold 100 the increase is 150 and the
alert fires. -/
theorem c7_traffic_spike_guard_and_threshold :
    (∀ (b : Option ℚ) (th : ℚ), check_traffic_spike none b th = false) ∧
    (∀ (c : Option ℚ) (th : ℚ), check_traffic_spike c none th = false) ∧
    (∀ (c th : ℚ), check_traffic_spike (some c) (some 0) th = false) ∧
    (∀ (c b th : ℚ), b ≠ 0 →
       (check_traffic_spike (some c) (some b) th = true ↔ traffic_increase c b > th)) ∧
    traffic_increase 25 10 = 150 ∧
    check_traffic_spike (some 25) (some 10) 100 = true := by
  refine ⟨?_, ?_, ?_, ?_, ?_, ?_⟩
  · intro b th
    cases b <;> rfl
  · intro c th
    cases c <;> rfl
  · intro c th
    simp [check_traffic_spike]
  · intro c b th h
    simp [check_traffic_spike, h]
  · norm_num [traffic_increase]
  · simp [check_traffic_spike, traffic_increase]
    norm_num

/-- Witness for C7 at baseline 10, current 25, threshold 100. -/
theorem c7_traffic_spike_guard_and_threshold_witness :
    check_traffic_spike (some 25) (some 10) 100 = true ↔ traffic_increase 25 10 > 100 :=
  c7_traffic_spike_guard_and_threshold.2.2.2.1 25 10 100 (by norm_num)

/-- Counterexample for C8.  The claim states both parsers map "Nd" to N
days; the alert-engine parser has no day branch, so "2d" falls into the bare
`int()` fallback and yields the 5-minute default, and the analyzer maps
"90m" to `90 // 60 = 1` hour instead of 90 minutes. -/
theorem c8_day_window_counterexample :
    alert_parse_time_window_minutes "2d" = some 5 ∧
    analyzer_parse_time_window "90m" = some 1 := by
  constructor <;> rfl

/-- Claim C8 (corrected).  For a nonnegative numeral N (a digit string):
the analyzer returns hours with "Nh" ↦ N, "Nd" ↦ 24 N, "Nm" ↦ N / 60
(floor), and any string ending in none of h, d, m defaults to 24 hours; the
alert engine returns minutes with "Nm" ↦ N, "Nh" ↦ 60 N, the bare numeral
"N" ↦ N, while "Nd" and every other string that ends in neither m nor h and
fails `int()` defaults to 5 minutes; a string ending in m or h (or, for the
analyzer, d) whose prefix is not a numeral raises instead of defaulting. -/
theorem c8_parse_time_window_amended :
    (∀ (cs : List Char) (n : ℕ), pyIntDigits cs = some n →
      analyzer_parse_time_window ⟨cs ++ ['h']⟩ = some n ∧
      analyzer_parse_time_window ⟨cs ++ ['d']⟩ = some (n * 24) ∧
      analyzer_parse_time_window ⟨cs ++ ['m']⟩ = some (n / 60) ∧
      alert_parse_time_window_minutes ⟨cs ++ ['m']⟩ = some n ∧
      alert_parse_time_window_minutes ⟨cs ++ ['h']⟩ = some (n * 60) ∧
      alert_parse_time_window_minutes ⟨cs ++ ['d']⟩ = some 5 ∧
      alert_parse_time_window_minutes ⟨cs⟩ = some n) ∧
    (∀ (s : String), s.data.getLast? ≠ some 'h' → s.data.getLast? ≠ some 'd' →
       s.data.getLast? ≠ some 'm' → analyzer_parse_time_window s = some 24) ∧
    (∀ (s : String), s.data.getLast? ≠ some 'm' → s.data.getLast? ≠ some 'h' →
       pyIntDigits s.data = none → alert_parse_time_window_minutes s = some 5) ∧
    (∀ (cs : List Char), pyIntDigits cs = none →
       alert_parse_time_window_minutes ⟨cs ++ ['m']⟩ = none ∧
       analyzer_parse_time_window ⟨cs ++ ['h']⟩ = none) := by
  refine ⟨?_, ?_, ?_, ?_⟩
  · intro cs n hn
    obtain ⟨hne, hdig⟩ := pyIntDigits_some_facts cs n hn
    have hlast : ∀ c : Char, cs.getLast? = some c → c.isDigit = true := by
      intro c hc
      obtain ⟨hne2, hceq⟩ := List.mem_getLast?_eq_getLast (Option.mem_def.mpr hc)
      have hcm : c ∈ cs := hceq ▸ List.getLast_mem hne2
      exact List.all_eq_true.mp hdig c hcm
    have hlastm : cs.getLast? ≠ some 'm' := by
      intro h
      have := hlast _ h
      simp at this
    have hlasth : cs.getLast? ≠ some 'h' := by
      intro h
      have := hlast _ h
      simp at this
    refine ⟨?_, ?_, ?_, ?_, ?_, ?_, ?_⟩
    · simp [analyzer_parse_time_window, List.getLast?_concat, List.dropLast_concat, hn]
    · simp [analyzer_parse_time_window, List.getLast?_concat, List.dropLast_concat, hn]
    · simp [analyzer_parse_time_window, List.getLast?_concat, List.dropLast_concat, hn]
    · simp [alert_parse_time_window_minutes, List.getLast?_concat, List.dropLast_concat, hn]
    · simp [alert_parse_time_window_minutes, List.getLast?_concat, List.dropLast_concat, hn]
    · have h5 : pyIntDigits (cs ++ ['d']) = none :=
        pyIntDigits_concat_nondigit cs 'd' (by decide)
      simp [alert_parse_time_window_minutes, List.getLast?_concat, h5]
    · simp [alert_parse_time_window_minutes, hlastm, hlasth, hn]
  · intro s h1 h2 h3
    simp [analyzer_parse_time_window, h1, h2, h3]
  · intro s h1 h2 h3
    simp [alert_parse_time_window_minutes, h1, h2, h3]
  · intro cs h
    constructor
    · simp [alert_parse_time_window_minutes, List.getLast?_concat, List.dropLast_concat, h]
    · simp [analyzer_parse_time_window, List.getLast?_concat, List.dropLast_concat, h]

/-- Witness for C8: "90m" parses to 1 hour in the analyzer and "2d" to the
5-minute default in the alert engine. -/
theorem c8_parse_time_window_amended_witness :
    analyzer_parse_time_window ⟨['9', '0'] ++ ['m']⟩ = some (90 / 60) ∧
    alert_parse_time_window_minutes ⟨['2'] ++ ['d']⟩ = some 5 :=
  ⟨(c8_parse_time_window_amended.1 ['9', '0'] 90 (by rfl)).2.2.1,
   (c8_parse_time_window_amended.1 ['2'] 2 (by rfl)).2.2.2.2.2.1⟩

/-- Claim C9 (confirmed).  After `cleanup_old_data`, every event whose
timestamp equals the cutoff is retained, every event strictly older is
deleted, every bucket whose `hour_bucket` string sorts before the cutoff
date string is deleted, and every surviving bucket is an untouched original
row (no aggregate is recomputed). -/
theorem c9_retention_boundary :
    ∀ (events : List ApiEvent) (buckets : List EndpointMetricsBucket)
      (ct : ℚ) (cd : String),
      (∀ e ∈ events, e.timestamp = some ct →
         e ∈ (cleanup_old_data events buckets ct cd).1) ∧
      (∀ e ∈ events, ∀ ts, e.timestamp = some ts → ts < ct →
         e ∉ (cleanup_old_data events buckets ct cd).1) ∧
      (∀ b : EndpointMetricsBucket, b.date_hour < cd →
         b ∉ (cleanup_old_data events buckets ct cd).2) ∧
      (∀ b ∈ (cleanup_old_data events buckets ct cd).2,
         b ∈ buckets ∧ ¬ b.date_hour < cd) := by
  intro events buckets ct cd
  refine ⟨?_, ?_, ?_, ?_⟩
  · intro e he hts
    rw [cleanup_old_data]
    apply List.mem_filter.mpr
    refine ⟨he, ?_⟩
    rw [hts]
    exact decide_eq_true (lt_irrefl ct)
  · intro e he ts hts hlt hmem
    rw [cleanup_old_data] at hmem
    have h2 := (List.mem_filter.mp hmem).2
    rw [hts] at h2
    exact of_decide_eq_true h2 hlt
  · intro b hb hmem
    rw [cleanup_old_data] at hmem
    have h2 := (List.mem_filter.mp hmem).2
    exact of_decide_eq_true h2 hb
  · intro b hmem
    rw [cleanup_old_data] at hmem
    have h := List.mem_filter.mp hmem
    exact ⟨h.1, of_decide_eq_true h.2⟩

/-- Witness for C9: with cutoff timestamp 5 and cutoff date "2024-01-15",
the event at the cutoff survives, the event one second older is deleted, and
the bucket of the previous day is deleted. -/
theorem c9_retention_boundary_witness :
    eventAtCutoff ∈ (cleanup_old_data [eventAtCutoff, eventOlder] [oldBucket] 5 "2024-01-15").1 ∧
    eventOlder ∉ (cleanup_old_data [eventAtCutoff, eventOlder] [oldBucket] 5 "2024-01-15").1 ∧
    oldBucket ∉ (cleanup_old_data [eventAtCutoff, eventOlder] [oldBucket] 5 "2024-01-15").2 :=
  ⟨(c9_retention_boundary [eventAtCutoff, eventOlder] [oldBucket] 5 "2024-01-15").1
      eventAtCutoff (List.mem_cons_self _ _) rfl,
   (c9_retention_boundary [eventAtCutoff, eventOlder] [oldBucket] 5 "2024-01-15").2.1
      eventOlder (by simp) 4 rfl (by norm_num),
   (c9_retention_boundary [eventAtCutoff, eventOlder] [oldBucket] 5 "2024-01-15").2.2.1
      oldBucket
      (by rw [show oldBucket.date_hour = "2024-01-14-23" from rfl, String.lt_iff_toList_lt]
          decide)⟩

/-- Counterexample for C10.  The claim quantifies over every event
dictionary; on a dictionary whose `method` value is not a string the code
raises `AttributeError` from `.upper()` and returns nothing at all, so it
does not return a dictionary with the same keys. -/
theorem c10_sanitize_raises_counterexample :
    sanitize_event [("method", PyVal.int 5)] = none := by
  rfl

/-- Claim C10 (corrected).  On every event dictionary on which
`sanitize_event` does not raise, the result has exactly the same keys (the
input itself is never mutated, which the pure embedding reflects), every key
outside the designated fields keeps its value, the seven listed string
fields have string values stripped and truncated to 500 characters, `method`
is additionally uppercased, `status_code` is cast to int (when present and
not null), `latency_ms` to float (same guard), and the two size fields are
replaced by `max(0, int(value))`. -/
theorem c10_sanitize_frame_amended :
    ∀ (d d2 : PyDict), sanitize_event d = some d2 →
      (dictKeys d2 = dictKeys d) ∧
      (∀ k, k ∉ string_fields → k ≠ "status_code" → k ≠ "latency_ms" →
         k ≠ "request_size" → k ≠ "response_size" →
         dictLookup d2 k = dictLookup d k) ∧
      (∀ f s, f ∈ string_fields → f ≠ "method" → dictLookup d f = some (.str s) →
         dictLookup d2 f = some (.str (pySlice500 s.trim))) ∧
      (∀ s, dictLookup d "method" = some (.str s) →
         dictLookup d2 "method" = some (.str (pyUpper (pySlice500 s.trim)))) ∧
      (∀ v n, dictLookup d "status_code" = some v → pyIntOfVal v = some n →
         dictLookup d2 "status_code" = some (.int n)) ∧
      (∀ v q, dictLookup d "latency_ms" = some v → pyFloatOfVal v = some q →
         dictLookup d2 "latency_ms" = some (.float q)) ∧
      (∀ v n, dictLookup d "request_size" = some v → pyIntOfVal v = some n →
         dictLookup d2 "request_size" = some (.int (max 0 n))) ∧
      (∀ v n, dictLookup d "response_size" = some v → pyIntOfVal v = some n →
         dictLookup d2 "response_size" = some (.int (max 0 n))) := by
  intro d d2 h
  simp only [sanitize_event, Option.bind_eq_some] at h
  obtain ⟨d1, hm, dst, hst, dla, hla, drq, hrq, hrs⟩ := h
  have K0 : dictKeys (sanitize_strings d) = dictKeys d :=
    dictKeys_sanitize_strings_aux string_fields d
  obtain ⟨K1, F1⟩ := sanitize_method_keys_frame _ _ hm
  obtain ⟨K2, F2⟩ := sanitize_status_code_keys_frame _ _ hst
  obtain ⟨K3, F3⟩ := sanitize_latency_keys_frame _ _ hla
  obtain ⟨K4, F4⟩ := sanitize_size_field_keys_frame _ _ _ hrq
  obtain ⟨K5, F5⟩ := sanitize_size_field_keys_frame _ _ _ hrs
  have hnd : string_fields.Nodup := by decide
  have hmm : "method" ∈ string_fields := by decide
  refine ⟨?_, ?_, ?_, ?_, ?_, ?_, ?_, ?_⟩
  · rw [K5, K4, K3, K2, K1, K0]
  · intro k hk1 hk2 hk3 hk4 hk5
    have hkm : k ≠ "method" := fun he => hk1 (he ▸ hmm)
    rw [F5 k hk5, F4 k hk4, F3 k hk3, F2 k hk2, F1 k hkm]
    exact dictLookup_foldl_ssf_ne string_fields d k hk1
  · intro f s hmem hm2 hval
    have hf : f ≠ "status_code" ∧ f ≠ "latency_ms" ∧
        f ≠ "request_size" ∧ f ≠ "response_size" := by
      simp only [string_fields, List.mem_cons, List.not_mem_nil, or_false] at hmem
      rcases hmem with rfl | rfl | rfl | rfl | rfl | rfl | rfl <;>
        exact ⟨by decide, by decide, by decide, by decide⟩
    rw [F5 f hf.2.2.2, F4 f hf.2.2.1, F3 f hf.2.1, F2 f hf.1, F1 f hm2]
    exact dictLookup_foldl_ssf_str string_fields d f s hmem hnd hval
  · intro s hval
    have hstr : dictLookup (sanitize_strings d) "method" =
        some (.str (pySlice500 s.trim)) :=
      dictLookup_foldl_ssf_str string_fields d "method" s hmm hnd hval
    have h2 := sanitize_method_transform _ _ _ hstr hm
    rw [F5 _ (by decide), F4 _ (by decide), F3 _ (by decide), F2 _ (by decide)]
    exact h2
  · intro v n hval hcast
    have h1 : dictLookup d1 "status_code" = some v := by
      rw [F1 _ (by decide)]
      rw [show dictLookup (sanitize_strings d) "status_code" =
            dictLookup d "status_code" from
          dictLookup_foldl_ssf_ne string_fields d _ (by decide)]
      exact hval
    have h2 := sanitize_status_code_transform _ _ _ _ h1 hcast hst
    rw [F5 _ (by decide), F4 _ (by decide), F3 _ (by decide)]
    exact h2
  · intro v q hval hcast
    have h1 : dictLookup dst "latency_ms" = some v := by
      rw [F2 _ (by decide), F1 _ (by decide)]
      rw [show dictLookup (sanitize_strings d) "latency_ms" =
            dictLookup d "latency_ms" from
          dictLookup_foldl_ssf_ne string_fields d _ (by decide)]
      exact hval
    have h2 := sanitize_latency_transform _ _ _ _ h1 hcast hla
    rw [F5 _ (by decide), F4 _ (by decide)]
    exact h2
  · intro v n hval hcast
    have h1 : dictLookup dla "request_size" = some v := by
      rw [F3 _ (by decide), F2 _ (by decide), F1 _ (by decide)]
      rw [show dictLookup (sanitize_strings d) "request_size" =
            dictLookup d "request_size" from
          dictLookup_foldl_ssf_ne string_fields d _ (by decide)]
      exact hval
    have h2 := sanitize_size_field_transform _ _ _ _ _ h1 hcast hrq
    rw [F5 _ (by decide)]
    exact h2
  · intro v n hval hcast
    have h1 : dictLookup drq "response_size" = some v := by
      rw [F4 _ (by decide), F3 _ (by decide), F2 _ (by decide), F1 _ (by decide)]
      rw [show dictLookup (sanitize_strings d) "response_size" =
            dictLookup d "response_size" from
          dictLookup_foldl_ssf_ne string_fields d _ (by decide)]
      exact hval
    exact sanitize_size_field_transform _ _ _ _ _ h1 hcast hrs

/-- Witness for C10 on a concrete dictionary that sanitizes successfully:
the keys are preserved and the status code is cast. -/
theorem c10_sanitize_frame_amended_witness :
    dictLookup sanitizeFixture "status_code" = some (PyVal.int 200) ∧
    dictKeys sanitizeFixture = dictKeys sanitizeFixture :=
  ⟨(c10_sanitize_frame_amended sanitizeFixture sanitizeFixture
      (by rfl)).2.2.2.2.1 (PyVal.int 200) 200 rfl rfl,
   (c10_sanitize_frame_amended sanitizeFixture sanitizeFixture (by rfl)).1⟩

end ApiVisualizer
